import Mathlib

/-!
Shallow embedding of `polarion/workitem.py` (python-polarion).

The module is a client-side proxy for a remote Polarion work item: it keeps a
live "shadow" of the remote fields as local attributes, a deep-copied
"snapshot" (`_original_polarion`) used as the diff baseline by `save()`, and
translates helper methods into remote SOAP calls recorded here as an explicit
call trace.

Python/zeep runtime values are embedded as the inductive type `Value`.
Python `dict`s and zeep compound objects are association lists of
`String × Value` pairs (`vObj` holds the custom list type `ObjFields` so that
the mutual inductive stays derivable and structurally recursive).  Python
`datetime`/`date` values are opaque numeric tags (only their equality matters
to the embedded code).  `float` fields never occur in the code paths the
claims touch and are not modelled.  Remote (zeep service) calls are not
executed: every method is a pure function from the proxy state and the
modelled remote responses to a result state plus the list of issued calls.
-/

mutual

inductive Value where
  | vNone
  | vBool (b : Bool)
  | vInt (n : Int)
  | vStr (s : String)
  | vDate (ordinal : Nat)
  | vDatetime (ticks : Nat)
  | vList (xs : ValueList)
  | vObj (fields : ObjFields)
  deriving DecidableEq

inductive ValueList where
  | nil
  | cons (hd : Value) (tl : ValueList)
  deriving DecidableEq

inductive ObjFields where
  | nil
  | cons (key : String) (val : Value) (tl : ObjFields)
  deriving DecidableEq

end

/-- Python `s.startswith(c)` for a one-character argument, written on the
character list so that it evaluates inside the kernel. -/
def pyStartsWith (s : String) (c : Char) : Bool :=
  match s.toList with
  | [] => false
  | c0 :: _ => c0 = c

/-- Python `s[1:]`. -/
def pyDropFirst (s : String) : String :=
  String.mk (s.toList.drop 1)

/-- The digit loop of Python `int(str)`: fail (`ValueError`) on any
non-digit character or on an empty digit string. -/
def pyDigits : List Char → Option Nat → Option Nat
  | [], acc => acc
  | c :: rest, acc =>
    if c.isDigit then
      pyDigits rest (some ((acc.getD 0) * 10 + (c.toNat - 48)))
    else none

/-- Python `int(str)` on a trimmed decimal literal with an optional sign
(surrounding whitespace, which the revision strings never carry, is not
modelled). -/
def pyToInt (s : String) : Option Int :=
  match s.toList with
  | '-' :: rest => (pyDigits rest none).map fun n => -(n : Int)
  | '+' :: rest => (pyDigits rest none).map fun n => (n : Int)
  | l => (pyDigits l none).map fun n => (n : Int)

/-- Keys of a zeep-object field list, in declaration order. -/
def ObjFields.keys : ObjFields → List String
  | .nil => []
  | .cons k _ t => k :: ObjFields.keys t

/-- Field lookup on a zeep object / Python dict (first match wins, as in a
Python dict there is at most one entry per key). -/
def ObjFields.lookup : ObjFields → String → Option Value
  | .nil, _ => none
  | .cons k v t, key => if k = key then some v else ObjFields.lookup t key

/-- Python `obj[key] = v` / `setattr(obj, key, v)`: overwrite the entry when
the key is present, append a new entry otherwise (dicts preserve insertion
order). -/
def ObjFields.setAttr : ObjFields → String → Value → ObjFields
  | .nil, key, v => .cons key v .nil
  | .cons k w t, key, v =>
    if k = key then .cons k v t else .cons k w (ObjFields.setAttr t key v)

/-- Length of an embedded Python list. -/
def ValueList.length : ValueList → Nat
  | .nil => 0
  | .cons _ t => 1 + ValueList.length t

/-- The remote work item payload as returned by the Tracker service
(`getWorkItemByUri` / `getWorkItemById`).  zeep groups the fields in
`__dict__['__values__']`; the grouping is flattened here into one field
list.  `unresolvable` mirrors the `unresolvable` flag checked by
`_buildWorkitemFromPolarion`. -/
structure PolarionItem where
  uri : String
  fields : ObjFields
  unresolvable : Bool
  deriving DecidableEq

/-- Local proxy state of a `Workitem` object.

* `wid` models the numeric identity `self.id` exposed by the base class.
  Modelled from the spec: the `id` property lives in the `CustomFields` base
  class (file not part of the sources); per the spec the hash "is defined as
  the numeric identity value".
* `uri` is `self.uri` (also a base-class property over `self._uri`).
* `keys` are the field names of `self._polarion_item` that `save()` and
  `_buildWorkitemFromPolarion` iterate over.
* `shadow` holds the local attributes (`getattr(self, key)`), i.e. the
  non-private part of `vars(self)`.
* `snapshot` holds `self._original_polarion` (`getattr` on the deep copy). -/
structure Workitem where
  wid : Int
  uri : String
  keys : List String
  shadow : ObjFields
  snapshot : ObjFields
  deriving DecidableEq

/-- One remote SOAP call, as issued through the Tracker / TestManagement
services.  Payload arguments that the claims never inspect are dropped. -/
inductive Call where
  | getWorkItemByUri (uri : String)
  | updateWorkItem (payload : ObjFields)
  | removeApproveeCall (uri user : String)
  | addApproveeCall (uri user : String)
  | removeAssigneeCall (uri user : String)
  | addAssigneeCall (uri user : String)
  | addHyperlinkCall (uri url role : String)
  | removeHyperlinkCall (uri url : String)
  | addLinkedItemCall (uri otherUri role : String)
  | removeLinkedItemCall (uri otherUri role : String)
  | deleteAttachmentCall (uri attachmentId : String)
  | createAttachmentCall (uri fileName title : String)
  | updateAttachmentCall (uri attachmentId fileName title : String)
  | deleteWorkItemCall (uri : String)
  | moveWorkItemToDocumentCall (uri documentUri : String) (parentUri : Option String)
  | getAvailableEnumOptionIdsCall (uri field : String)
  | getCustomFieldKeysCall (uri : String)
  | getTestStepsConfigurationCall (projectId : String)
  | setTestStepsCall (uri : String)
  | getInitialWorkflowActionCall (projectId typeId : String)
  | createWorkItemCall (item : ObjFields)
  deriving DecidableEq

/-- `_reloadFromPolarion`: issue `getWorkItemByUri`, rebuild the shadow
attributes from the fetched payload (`_buildWorkitemFromPolarion`) and reset
the snapshot to a deep copy of it.  `fetched` models the server response;
an unresolvable payload raises `PolarionAccessError` (`none`). -/
def reloadFromPolarion (w : Workitem) (fetched : PolarionItem) :
    Option (Workitem × List Call) :=
  if fetched.unresolvable then none
  else
    some ({ w with keys := fetched.fields.keys,
                   shadow := fetched.fields,
                   snapshot := fetched.fields },
          [Call.getWorkItemByUri w.uri])

/-- The diff loop of `save()`: for every field key of `_polarion_item`,
compare `getattr(self, key)` with `getattr(self._original_polarion, key)`
and collect the changed attributes (in iteration order) into `updated_item`.
A missing attribute would raise `AttributeError` (`none`); after
construction every iterated key is present on both sides. -/
def computeUpdates : List String → ObjFields → ObjFields → Option ObjFields
  | [], _, _ => some .nil
  | k :: ks, shadow, snapshot =>
    match shadow.lookup k, snapshot.lookup k with
    | some currentValue, some prevValue =>
      (computeUpdates ks shadow snapshot).map fun rest =>
        if currentValue ≠ prevValue then .cons k currentValue rest else rest
    | _, _ => none

/-- `Workitem.save()`: build the sparse update; when it is empty do nothing,
otherwise add the uri, push one `updateWorkItem` call and reload.
`fetched` models the server's response to the re-fetch. -/
def save (w : Workitem) (fetched : PolarionItem) :
    Option (Workitem × List Call) :=
  match computeUpdates w.keys w.shadow w.snapshot with
  | none => none
  | some updatedItem =>
    if updatedItem = .nil then some (w, [])
    else
      match reloadFromPolarion w fetched with
      | none => none
      | some (w2, reloadCalls) =>
        some (w2, Call.updateWorkItem
          (updatedItem.setAttr "uri" (Value.vStr w.uri)) :: reloadCalls)

/-- The `TextType(content=..., type='text/html', contentLossy=False)` value
built by `setDescription`. -/
def textTypeVal (content : String) : Value :=
  Value.vObj (.cons "content" (Value.vStr content)
    (.cons "type" (Value.vStr "text/html")
      (.cons "contentLossy" (Value.vBool false) .nil)))

/-- `Workitem.removeApprovee(user)`: one `removeApprovee` call, then a full
reload. -/
def removeApproveeOp (w : Workitem) (userId : String) (fetched : PolarionItem) :
    Option (Workitem × List Call) :=
  match reloadFromPolarion w fetched with
  | none => none
  | some (w2, reloadCalls) =>
    some (w2, Call.removeApproveeCall w.uri userId :: reloadCalls)

/-- `Workitem.addApprovee(user, remove_others)`: when `remove_others` is set,
first one `removeApprovee` call per current approver (`currentApprovers`
models `getApproverUsers()` read from the shadow), then one `addApprovee`
call, then a full reload. -/
def addApproveeOp (w : Workitem) (userId : String) (removeOthers : Bool)
    (currentApprovers : List String) (fetched : PolarionItem) :
    Option (Workitem × List Call) :=
  match reloadFromPolarion w fetched with
  | none => none
  | some (w2, reloadCalls) =>
    some (w2,
      (if removeOthers then
        currentApprovers.map (Call.removeApproveeCall w.uri) else [])
      ++ Call.addApproveeCall w.uri userId :: reloadCalls)

/-- `Workitem.removeAssignee(user)`: one `removeAssignee` call, then a full
reload. -/
def removeAssigneeOp (w : Workitem) (userId : String) (fetched : PolarionItem) :
    Option (Workitem × List Call) :=
  match reloadFromPolarion w fetched with
  | none => none
  | some (w2, reloadCalls) =>
    some (w2, Call.removeAssigneeCall w.uri userId :: reloadCalls)

/-- `Workitem.addAssignee(user, remove_others)`: when `remove_others` is
set, first one `removeAssignee` call per current assignee, then one
`addAssignee` call, then a full reload. -/
def addAssigneeOp (w : Workitem) (userId : String) (removeOthers : Bool)
    (currentAssignees : List String) (fetched : PolarionItem) :
    Option (Workitem × List Call) :=
  match reloadFromPolarion w fetched with
  | none => none
  | some (w2, reloadCalls) =>
    some (w2,
      (if removeOthers then
        currentAssignees.map (Call.removeAssigneeCall w.uri) else [])
      ++ Call.addAssigneeCall w.uri userId :: reloadCalls)

/-- `Workitem.addLinkedItem(workitem, link_type)`: one `addLinkedItem` call,
then a full reload of this proxy and of the other proxy (both results are
returned; both reload calls appear in the trace). -/
def addLinkedItemOp (w other : Workitem) (role : String)
    (fetchedSelf fetchedOther : PolarionItem) :
    Option (Workitem × Workitem × List Call) :=
  match reloadFromPolarion w fetchedSelf, reloadFromPolarion other fetchedOther with
  | some (w2, selfCalls), some (o2, otherCalls) =>
    some (w2, o2, Call.addLinkedItemCall w.uri other.uri role
      :: (selfCalls ++ otherCalls))
  | _, _ => none

/-- `Workitem.removeLinkedItem(workitem, role)` with an explicit role: one
`removeLinkedItem` call, then a full reload of both proxies.  (The
`role=None` variant walks the link collections to remove every link with
the target; it always ends in the same pair of reloads.) -/
def removeLinkedItemOp (w other : Workitem) (role : String)
    (fetchedSelf fetchedOther : PolarionItem) :
    Option (Workitem × Workitem × List Call) :=
  match reloadFromPolarion w fetchedSelf, reloadFromPolarion other fetchedOther with
  | some (w2, selfCalls), some (o2, otherCalls) =>
    some (w2, o2, Call.removeLinkedItemCall w.uri other.uri role
      :: (selfCalls ++ otherCalls))
  | _, _ => none

/-- `Workitem.addHyperlink(url, hyperlink_type)`: one `addHyperlink` call
(the enum member is converted to its string value by the caller-side
`isinstance` check, modelled by taking the role as a string), then a full
reload. -/
def addHyperlinkOp (w : Workitem) (url role : String) (fetched : PolarionItem) :
    Option (Workitem × List Call) :=
  match reloadFromPolarion w fetched with
  | none => none
  | some (w2, reloadCalls) =>
    some (w2, Call.addHyperlinkCall w.uri url role :: reloadCalls)

/-- `Workitem.removeHyperlink(url)`: one `removeHyperlink` call, then a full
reload. -/
def removeHyperlinkOp (w : Workitem) (url : String) (fetched : PolarionItem) :
    Option (Workitem × List Call) :=
  match reloadFromPolarion w fetched with
  | none => none
  | some (w2, reloadCalls) =>
    some (w2, Call.removeHyperlinkCall w.uri url :: reloadCalls)

/-- `Workitem.deleteAttachment(id)`: one `deleteAttachment` call, then a full
reload. -/
def deleteAttachmentOp (w : Workitem) (attachmentId : String)
    (fetched : PolarionItem) : Option (Workitem × List Call) :=
  match reloadFromPolarion w fetched with
  | none => none
  | some (w2, reloadCalls) =>
    some (w2, Call.deleteAttachmentCall w.uri attachmentId :: reloadCalls)

/-- `Workitem.addAttachment(file_path, title)`: one `createAttachment` call,
then a full reload.  The local file read and the `os.path.split` are not
modelled; `fileName` stands for the basename of `file_path`. -/
def addAttachmentOp (w : Workitem) (fileName title : String)
    (fetched : PolarionItem) : Option (Workitem × List Call) :=
  match reloadFromPolarion w fetched with
  | none => none
  | some (w2, reloadCalls) =>
    some (w2, Call.createAttachmentCall w.uri fileName title :: reloadCalls)

/-- `Workitem.updateAttachment(id, file_path, title)`: one `updateAttachment`
call, then a full reload. -/
def updateAttachmentOp (w : Workitem) (attachmentId fileName title : String)
    (fetched : PolarionItem) : Option (Workitem × List Call) :=
  match reloadFromPolarion w fetched with
  | none => none
  | some (w2, reloadCalls) =>
    some (w2, Call.updateAttachmentCall w.uri attachmentId fileName title
      :: reloadCalls)

/-- `Workitem.delete()`: a single `deleteWorkItem` call; the method performs
no reload and leaves the local state untouched. -/
def deleteOp (w : Workitem) : List Call :=
  [Call.deleteWorkItemCall w.uri]

/-- `Workitem.moveToDocument(document, parent)`: a single
`moveWorkItemToDocument` call (parent uri or xsd Nil); no reload, local state
untouched. -/
def moveToDocumentOp (w : Workitem) (documentUri : String)
    (parentUri : Option String) : List Call :=
  [Call.moveWorkItemToDocumentCall w.uri documentUri parentUri]

/-- `Workitem.setDescription(description)`: assign a fresh `TextType` value
to the `description` attribute, then go through `save()`. -/
def setDescriptionOp (w : Workitem) (description : String)
    (fetched : PolarionItem) : Option (Workitem × List Call) :=
  let newShadow := w.shadow.setAttr "description" (textTypeVal description)
  save { w with shadow := newShadow } fetched

/-- `Workitem.setResolution(resolution)`: when the current `resolution`
attribute is not `None`, mutate its `id` sub-field in place; otherwise
assign a fresh `EnumOptionIdType`; then go through `save()`.  (`getattr` on a
zeep object with a non-object, non-`None` resolution would raise: the
attribute is either `None` or an enum-option object.) -/
def setResolutionOp (w : Workitem) (resolution : String)
    (fetched : PolarionItem) : Option (Workitem × List Call) :=
  let newShadow :=
    match w.shadow.lookup "resolution" with
    | some (Value.vObj fs) =>
      w.shadow.setAttr "resolution"
        (Value.vObj (fs.setAttr "id" (Value.vStr resolution)))
    | _ =>
      w.shadow.setAttr "resolution"
        (Value.vObj (.cons "id" (Value.vStr resolution) .nil))
  save { w with shadow := newShadow } fetched

/-- `Workitem.setStatus(status)`: fetch the available status ids
(`getAvailableStatus()`, one `getAvailableEnumOptionIdsForId` call whose
response ids are modelled by `available`); when the requested status is
among them, mutate `self.status.id` and go through `save()`, otherwise do
nothing further.  A missing or non-object `status` attribute would raise
(`none`). -/
def setStatusOp (w : Workitem) (available : List String) (status : String)
    (fetched : PolarionItem) : Option (Workitem × List Call) :=
  let t0 := [Call.getAvailableEnumOptionIdsCall w.uri "status"]
  if status ∈ available then
    match w.shadow.lookup "status" with
    | some (Value.vObj fs) =>
      let newShadow :=
        w.shadow.setAttr "status" (Value.vObj (fs.setAttr "id" (Value.vStr status)))
      match save { w with shadow := newShadow } fetched with
      | none => none
      | some (w2, calls) => some (w2, t0 ++ calls)
    | _ => none
  else some (w, t0)

/-- The new-type branch of `Workitem.__init__`: after building the empty
item of the requested type (its schema field set is `schema`), ask the
server for the required features; fail with
`PolarionWorkitemAttributeError` when `new_workitem_fields` does not cover
them; assign the supplied fields one by one, failing on the first field name
the item schema does not recognise; finally create the item remotely and
re-fetch it.  The result is the issued call trace together with
`some ()` when the attribute error was raised (`none` = success). -/
def applyNewFields (item : ObjFields) : List (String × Value) →
    Option ObjFields
  | [] => some item
  | (k, v) :: rest =>
    if k ∈ item.keys then applyNewFields (item.setAttr k v) rest
    else none

/-- `set(required) <= new_workitem_fields.keys()` of the source: every
required feature occurs among the supplied field names. -/
def coversRequired (required : List String)
    (newFields : Option (List (String × Value))) : Bool :=
  match newFields with
  | none => false
  | some fields => required.all fun r => (fields.map Prod.fst).contains r

def newWorkitemInit (projectId typeId : String) (schema : ObjFields)
    (requiredFeatures : Option (List String))
    (newFields : Option (List (String × Value)))
    (fetched : PolarionItem) : List Call × Option Unit :=
  let t0 := [Call.getInitialWorkflowActionCall projectId typeId]
  let requiredOk :=
    match requiredFeatures with
    | none => true
    | some required => coversRequired required newFields
  if requiredOk = false then (t0, some ())
  else
    match newFields with
    | none =>
      (t0 ++ [Call.createWorkItemCall schema, Call.getWorkItemByUri fetched.uri],
       none)
    | some fields =>
      match applyNewFields schema fields with
      | none => (t0, some ())
      | some item2 =>
        (t0 ++ [Call.createWorkItemCall item2, Call.getWorkItemByUri fetched.uri],
         none)

/-- One element of a remote link collection (`LinkedWorkItem` zeep object).
`role = none` models a link whose `role` attribute is `None`, so that
`obj.role.id` raises `AttributeError` inside the iterator. -/
structure LinkElem where
  role : Option String
  workItemURI : String
  deriving DecidableEq

/-- The role string the iterator produces for a link:
`try: role = obj.role.id except AttributeError: role = 'NA'`. -/
def roleOf (x : LinkElem) : String :=
  match x.role with
  | some r => r
  | none => "NA"

/-- The constructor loop of `Workitem.WorkItemIterator`: walk the `roles`
argument left to right; a role starting with `~` is stripped and appended
to the disallowed list, any other role is appended to the allowed list;
each list stays `None` until its first element arrives. -/
def splitRolesAux : Option (List String) × Option (List String) →
    List String → Option (List String) × Option (List String)
  | acc, [] => acc
  | (dis, alw), r :: rest =>
    if pyStartsWith r '~' then
      splitRolesAux (some ((dis.getD []) ++ [pyDropFirst r]), alw) rest
    else
      splitRolesAux (dis, some ((alw.getD []) ++ [r])) rest

def splitRoles (roles : List String) :
    Option (List String) × Option (List String) :=
  splitRolesAux (none, none) roles

/-- The filter applied by `WorkItemIterator.__next__`: the element is
produced when its role is not disallowed and, when an allow-list exists,
explicitly allowed. -/
def rolePass (dis alw : Option (List String)) (role : String) : Bool :=
  (match dis with
   | none => true
   | some d => !(d.contains role)) &&
  (match alw with
   | none => true
   | some a => a.contains role)

/-- The full sequence produced by `Workitem.WorkItemIterator` over a link
collection (`linkedWorkItems`, `none` when the remote attribute is `None`)
with the given `roles` filter argument (`none` = no filter): the `__next__`
loop walks the collection in order and yields every passing element as a
`(role, workItemURI)` pair, ending cleanly on exhaustion. -/
def iterLinked (links : Option (List LinkElem)) (roles : Option (List String)) :
    List (String × String) :=
  match links with
  | none => []
  | some l =>
    let da := match roles with
      | none => (none, none)
      | some rs => splitRoles rs
    (l.filter fun x => rolePass da.1 da.2 (roleOf x)).map
      fun x => (roleOf x, x.workItemURI)

/-- One cell of a test-step row (`TextType`): `content` and `contentLossy`
are kept as raw values because `setTestSteps` checks them with
`isinstance(content, str)` and `contentLossy is False`. -/
structure TextCell where
  cellType : String
  content : Value
  contentLossy : Value
  deriving DecidableEq

/-- One test step: its `values.Text` cell list. -/
structure TestStepRow where
  cells : List TextCell
  deriving DecidableEq

/-- `isinstance(content, str)`. -/
def isStrVal : Value → Bool
  | Value.vStr _ => true
  | _ => false

/-- The per-column assertion of `setTestSteps` on the first step:
`type == 'text/html' and isinstance(content, str) and contentLossy is False`. -/
def cellOk (c : TextCell) : Bool :=
  c.cellType == "text/html" && isStrVal c.content
    && c.contentLossy == Value.vBool false

/-- `Workitem.setTestSteps(test_steps)` on an already-extracted step list:
assert the list is non-empty; when the item has the test-steps custom field
(`hasTestSteps()`, one `getCustomFieldKeys` call, re-checked by
`getTestStepHeaderID`, then one `getTestStepsConfiguration` call returning
the configured columns) assert that the FIRST step has one cell per
configured column and that each of its cells is well-formed rich text; then
issue the remote `setTestSteps` call.  The per-column indexed loop over the
first step's cells is expressed as `List.all` over the cells, which at that
point are exactly as many as the columns.  The result is the issued call
trace plus `some ()` when an assertion failed. -/
def setTestStepsOp (uri projectId : String) (customFields : List String)
    (columns : List String) (steps : List TestStepRow) :
    List Call × Option Unit :=
  if steps.isEmpty then ([], some ())
  else if customFields.contains "testSteps" then
    let t0 := [Call.getCustomFieldKeysCall uri, Call.getCustomFieldKeysCall uri,
               Call.getTestStepsConfigurationCall projectId]
    match steps.head? with
    | none => (t0, some ())
    | some firstStep =>
      if firstStep.cells.length ≠ columns.length then (t0, some ())
      else if firstStep.cells.all cellOk then
        (t0 ++ [Call.setTestStepsCall uri], none)
      else (t0, some ())
  else
    ([Call.getCustomFieldKeysCall uri, Call.setTestStepsCall uri], none)

/-- `Workitem.getStatusEnum()`: ask the project for the
`'{type.id}-status'` enumeration; on any failure return the empty list.
`getEnum` models `self._project.getEnum` (an external collaborator), with
`Except.error` standing for a raised exception. -/
def getStatusEnum (getEnum : String → Except Unit (List String))
    (typeId : String) : List String :=
  match getEnum (typeId ++ "-status") with
  | Except.ok e => e
  | Except.error _ => []

/-- `Workitem.getResolutionEnum()`: same shape for `'{type.id}-resolution'`. -/
def getResolutionEnum (getEnum : String → Except Unit (List String))
    (typeId : String) : List String :=
  match getEnum (typeId ++ "-resolution") with
  | Except.ok e => e
  | Except.error _ => []

/-- `Workitem.getSeverityEnum()`: same shape for `'{type.id}-severity'`. -/
def getSeverityEnum (getEnum : String → Except Unit (List String))
    (typeId : String) : List String :=
  match getEnum (typeId ++ "-severity") with
  | Except.ok e => e
  | Except.error _ => []

/-- `Workitem.getRevision()`: fetch the revision history; `history[-1]`
raises `IndexError` on an empty history and `int(...)` raises `ValueError`
on a non-numeric entry; the bare `except` turns every failure (including a
failing remote call, `Except.error`) into `PolarionWorkitemAttributeError`,
modelled as `Except.error ()`.  Python `int(...)` on the (numeric) revision
strings is modelled by `String.toInt?`. -/
def getRevision (getRevisions : Except Unit (List String)) :
    Except Unit Int :=
  match getRevisions with
  | Except.error _ => Except.error ()
  | Except.ok history =>
    match history.getLast? with
    | none => Except.error ()
    | some s =>
      match pyToInt s with
      | none => Except.error ()
      | some n => Except.ok n

/-- Python `list.index(x)`: position of the first occurrence, `ValueError`
(`none`) when absent. -/
def pyIndex : List String → String → Option Nat
  | [], _ => none
  | x :: xs, target =>
    if x = target then some 0 else (pyIndex xs target).map (· + 1)

/-- Python `str.split('/')` (single-character separator): split on every
occurrence, keeping empty segments; the empty string yields `[""]`. -/
def pySplitAux : List Char → Char → List Char → List String
  | [], _, acc => [String.mk acc.reverse]
  | c :: rest, sep, acc =>
    if c = sep then String.mk acc.reverse :: pySplitAux rest sep []
    else pySplitAux rest sep (c :: acc)

def pySplit (s : String) (sep : Char) : List String :=
  pySplitAux s.toList sep []

/-- The slice-and-join core of the `Workitem.document` property on the
already-split location: find the first `'modules'` and the first
`'workitems'` segment (`None` when either `.index` raises `ValueError`) and
join the segments of the Python slice `[start+1:stop]` with `'/'`. -/
def documentOfParts (parts : List String) : Option String :=
  match pyIndex parts "modules", pyIndex parts "workitems" with
  | some start, some stop =>
    some (String.intercalate "/" ((parts.drop (start + 1)).take (stop - (start + 1))))
  | _, _ => none

/-- `Workitem.document`: split `self.location` on `'/'` and delegate. -/
def documentOf (location : String) : Option String :=
  documentOfParts (pySplit location '/')

/-- The runtime type tag compared by `type(a[key]) == type(b[key])` in
`_compareType` (each `Value` constructor stands for one Python type). -/
def typeTag : Value → Nat
  | Value.vNone => 0
  | Value.vBool _ => 1
  | Value.vInt _ => 2
  | Value.vStr _ => 3
  | Value.vDate _ => 4
  | Value.vDatetime _ => 5
  | Value.vList _ => 6
  | Value.vObj _ => 7

/-- Membership of the value's type in `basic_types = [int, float, bool,
NoneType, str, datetime, date]`. -/
def isBasicVal : Value → Bool
  | Value.vNone => true
  | Value.vBool _ => true
  | Value.vInt _ => true
  | Value.vStr _ => true
  | Value.vDate _ => true
  | Value.vDatetime _ => true
  | _ => false

/-- All keys of an object are private (`_`-prefixed), so the comparison
loop body never runs. -/
def allPrivateKeys : ObjFields → Bool
  | .nil => true
  | .cons k _ t => pyStartsWith k '_' && allPrivateKeys t

mutual

/-- `Workitem._compareType(a, b)` on two key/value mappings (the top-level
call receives the `vars(...)` dicts, nested calls receive zeep objects;
both iterate and index the same way).  For every non-private key of `a`:
a differing runtime type ends the walk with `False`; basic types are
compared with `!=`; lists are compared by length and then element-wise,
with the element comparison's boolean result DISCARDED (only an exception,
`none`, propagates); any other same-typed pair recurses structurally.
`b[key]` on a missing key raises (`none`). -/
def compareEntries : ObjFields → ObjFields → Option Bool
  | .nil, _ => some true
  | .cons k va rest, b =>
    if pyStartsWith k '_' then compareEntries rest b
    else
      match b.lookup k with
      | none => none
      | some vb =>
        if typeTag va ≠ typeTag vb then some false
        else if isBasicVal va then
          if va ≠ vb then some false else compareEntries rest b
        else
          match va, vb with
          | Value.vList xs, Value.vList ys =>
            if xs.length ≠ ys.length then some false
            else
              match compareElems xs ys with
              | none => none
              | some _ => compareEntries rest b
          | Value.vObj fa, Value.vObj fb =>
            match compareEntries fa fb with
            | none => none
            | some false => some false
            | some true => compareEntries rest b
          | _, _ => some false
  termination_by structural a _ => a

/-- The `for idx, sub_a in enumerate(a[key])` loop: run `_compareType` on
each element pair, keeping only a raised exception (`none`); the boolean
results are computed and dropped.  The second list cannot be shorter since
the lengths were just compared. -/
def compareElems : ValueList → ValueList → Option Bool
  | .nil, _ => some true
  | .cons _ _, .nil => none
  | .cons x xs, .cons y ys =>
    match compareAny x y with
    | none => none
    | some _ => compareElems xs ys
  termination_by structural a _ => a

/-- `_compareType` applied to arbitrary list elements.  Iterating a
compound (dict-like) element walks its keys; when the right-hand element is
not dict-like, the first non-private key lookup raises `TypeError` (`none`),
and an element whose keys are all private returns `True` without touching
the right-hand side.  Iterating a primitive left-hand element raises
`TypeError` (`none`); the pathological iterables Python would accept (e.g.
strings consisting solely of underscores) do not occur as list elements in
remote payloads and are mapped to the raising case as well. -/
def compareAny : Value → Value → Option Bool
  | Value.vObj fa, Value.vObj fb => compareEntries fa fb
  | Value.vObj fa, _ => if allPrivateKeys fa then some true else none
  | _, _ => none
  termination_by structural a _ => a

end

/-- `Workitem.__eq__`: compare `vars(self)` with `vars(other)` via
`_compareType` (the `try` around `vars` only guards objects without a
`__dict__`, which a `Workitem` always has).  The attribute dict is the
shadow; private attributes are skipped by the comparator's underscore
filter. -/
def wiEq (a b : Workitem) : Option Bool :=
  compareEntries a.shadow b.shadow

/-- `Workitem.__hash__`: `return self.id` — the identity value, with no
reference to the structural comparison. -/
def wiHash (w : Workitem) : Int :=
  w.wid

/-! Concrete fixture states used by the witness and counterexample
theorems below. -/

/-- A one-field attribute set `{x: [obj(p=1)]}`: a single list-valued field
holding one nested object. -/
def fieldsNestedOne : ObjFields :=
  .cons "x" (Value.vList (.cons (Value.vObj (.cons "p" (Value.vInt 1) .nil)) .nil)) .nil

/-- As `fieldsNestedOne` but with the nested object's `p` field set to 2. -/
def fieldsNestedTwo : ObjFields :=
  .cons "x" (Value.vList (.cons (Value.vObj (.cons "p" (Value.vInt 2) .nil)) .nil)) .nil

/-- A synchronized proxy whose only field is the nested list `x`. -/
def wNestedA : Workitem := ⟨1, "uA", ["x"], fieldsNestedOne, fieldsNestedOne⟩

/-- A different identity whose `x` differs from `wNestedA` only inside the
nested list element. -/
def wNestedB : Workitem := ⟨2, "uB", ["x"], fieldsNestedTwo, fieldsNestedTwo⟩

/-- A proxy whose `t` field is an `int`. -/
def wMismatchA : Workitem :=
  ⟨3, "uC", ["t"], .cons "t" (Value.vInt 1) .nil, .cons "t" (Value.vInt 1) .nil⟩

/-- A proxy whose `t` field is a `str` (runtime type differs from
`wMismatchA`). -/
def wMismatchB : Workitem :=
  ⟨4, "uD", ["t"], .cons "t" (Value.vStr "x") .nil, .cons "t" (Value.vStr "x") .nil⟩

/-- A synchronized proxy: a single `title` field equal on both sides. -/
def wSaveClean : Workitem :=
  ⟨5, "u1", ["title"], .cons "title" (Value.vStr "a") .nil,
   .cons "title" (Value.vStr "a") .nil⟩

/-- A resolvable remote payload for re-fetch responses. -/
def itemFetched : PolarionItem :=
  ⟨"u1", .cons "title" (Value.vStr "a") .nil, false⟩

/-- A synchronized proxy whose only field is a `description` holding
`TextType('x')`. -/
def wDesc : Workitem :=
  ⟨6, "u1", ["description"], .cons "description" (textTypeVal "x") .nil,
   .cons "description" (textTypeVal "x") .nil⟩

/-- A well-formed rich-text cell. -/
def goodCell : TextCell := ⟨"text/html", Value.vStr "a", Value.vBool false⟩

/-- A step list whose first step matches a two-column configuration but
whose second step has three cells. -/
def stepsBadTail : List TestStepRow :=
  [⟨[goodCell, goodCell]⟩, ⟨[goodCell, goodCell, goodCell]⟩]

/-! Helper lemmas about the embedded dict operations and `save()`. -/

theorem ObjFields.keys_eq_nil_iff (f : ObjFields) :
    f.keys = [] ↔ f = ObjFields.nil := by
  cases f <;> simp [ObjFields.keys]

theorem ObjFields.lookup_setAttr_self :
    ∀ (f : ObjFields) (k : String) (v : Value),
    (f.setAttr k v).lookup k = some v
  | .nil, k, v => by simp [ObjFields.setAttr, ObjFields.lookup]
  | .cons k0 w t, k, v => by
    by_cases h : k0 = k
    · simp [ObjFields.setAttr, h, ObjFields.lookup]
    · simp [ObjFields.setAttr, h, ObjFields.lookup,
        ObjFields.lookup_setAttr_self t k v]

theorem ObjFields.keys_setAttr_of_not_mem :
    ∀ (f : ObjFields) (k : String) (v : Value), k ∉ f.keys →
    (f.setAttr k v).keys = f.keys ++ [k]
  | .nil, k, v, _ => by simp [ObjFields.setAttr, ObjFields.keys]
  | .cons k0 w t, k, v, h => by
    simp only [ObjFields.keys, List.mem_cons, not_or] at h
    simp [ObjFields.setAttr, Ne.symm h.1, ObjFields.keys,
      ObjFields.keys_setAttr_of_not_mem t k v h.2]

theorem ObjFields.setAttr_eq_self :
    ∀ (f : ObjFields) (k : String) (v : Value), f.lookup k = some v →
    f.setAttr k v = f
  | .nil, k, v, h => by simp [ObjFields.lookup] at h
  | .cons k0 w t, k, v, h => by
    by_cases hk : k0 = k
    · subst hk
      simp [ObjFields.lookup] at h
      simp [ObjFields.setAttr, h]
    · simp only [ObjFields.lookup, if_neg hk] at h
      simp [ObjFields.setAttr, hk, ObjFields.setAttr_eq_self t k v h]

theorem computeUpdates_spec (sh sn : ObjFields) :
    ∀ ks : List String,
    (∀ k ∈ ks, (sh.lookup k).isSome ∧ (sn.lookup k).isSome) →
    ∃ upd, computeUpdates ks sh sn = some upd ∧
      upd.keys = ks.filter fun k => decide (sh.lookup k ≠ sn.lookup k) := by
  intro ks
  induction ks with
  | nil => intro _; exact ⟨.nil, rfl, rfl⟩
  | cons k kt ih =>
    intro h
    obtain ⟨h1, h2⟩ := h k (by simp)
    obtain ⟨cv, hcv⟩ := Option.isSome_iff_exists.mp h1
    obtain ⟨pv, hpv⟩ := Option.isSome_iff_exists.mp h2
    obtain ⟨rest, hrest, hkeys⟩ := ih fun k hk => h k (by simp [hk])
    by_cases hne : cv = pv
    · refine ⟨rest, ?_, ?_⟩
      · simp [computeUpdates, hcv, hpv, hrest, hne]
      · rw [hkeys, List.filter_cons]
        simp [hcv, hpv, hne]
    · refine ⟨.cons k cv rest, ?_, ?_⟩
      · simp [computeUpdates, hcv, hpv, hrest, hne]
      · rw [List.filter_cons]
        simp [ObjFields.keys, hcv, hpv, hne, hkeys]

theorem save_of_unchanged (w : Workitem) (fetched : PolarionItem)
    (hkeys : ∀ k ∈ w.keys, (w.shadow.lookup k).isSome ∧ (w.snapshot.lookup k).isSome)
    (hsame : ∀ k ∈ w.keys, w.shadow.lookup k = w.snapshot.lookup k) :
    save w fetched = some (w, []) := by
  obtain ⟨upd, hupd, hk⟩ := computeUpdates_spec _ _ _ hkeys
  have hnilkeys : upd.keys = [] := by
    rw [hk]
    refine List.filter_eq_nil_iff.mpr fun k hkk => ?_
    simp [hsame k hkk]
  rw [(ObjFields.keys_eq_nil_iff upd).mp hnilkeys] at hupd
  simp [save, hupd]

theorem save_of_changed (w : Workitem) (fetched : PolarionItem)
    (hkeys : ∀ k ∈ w.keys, (w.shadow.lookup k).isSome ∧ (w.snapshot.lookup k).isSome)
    (hf : fetched.unresolvable = false)
    (huri : w.shadow.lookup "uri" = w.snapshot.lookup "uri")
    (hchanged : ∃ k ∈ w.keys, w.shadow.lookup k ≠ w.snapshot.lookup k) :
    ∃ w2 upd,
      save w fetched =
        some (w2, [Call.updateWorkItem upd, Call.getWorkItemByUri w.uri]) ∧
      upd.keys = (w.keys.filter fun k =>
        decide (w.shadow.lookup k ≠ w.snapshot.lookup k)) ++ ["uri"] ∧
      upd.lookup "uri" = some (Value.vStr w.uri) ∧
      w2.shadow = fetched.fields ∧ w2.snapshot = fetched.fields := by
  obtain ⟨upd0, hupd, hk⟩ := computeUpdates_spec _ _ _ hkeys
  obtain ⟨k, hkmem, hkne⟩ := hchanged
  have hne : upd0 ≠ ObjFields.nil := by
    intro hcon
    have : k ∈ upd0.keys := by
      rw [hk]
      exact List.mem_filter.mpr ⟨hkmem, by simpa using hkne⟩
    rw [hcon] at this
    simp [ObjFields.keys] at this
  have hnotmem : "uri" ∉ upd0.keys := by
    rw [hk]
    intro hmem
    have := (List.mem_filter.mp hmem).2
    simp only [decide_eq_true_eq] at this
    exact this huri
  refine ⟨⟨w.wid, w.uri, fetched.fields.keys, fetched.fields, fetched.fields⟩,
          upd0.setAttr "uri" (Value.vStr w.uri), ?_, ?_, ?_, rfl, rfl⟩
  · simp [save, hupd, hne, reloadFromPolarion, hf]
  · rw [ObjFields.keys_setAttr_of_not_mem upd0 _ _ hnotmem, hk]
  · exact ObjFields.lookup_setAttr_self upd0 _ _

theorem ObjFields.keys_setAttr_of_mem :
    ∀ (f : ObjFields) (k : String) (v : Value), k ∈ f.keys →
    (f.setAttr k v).keys = f.keys
  | .nil, k, v, h => by simp [ObjFields.keys] at h
  | .cons k0 w t, k, v, h => by
    by_cases hk : k0 = k
    · simp [ObjFields.setAttr, hk, ObjFields.keys]
    · have hmem : k ∈ t.keys := by
        simp only [ObjFields.keys, List.mem_cons] at h
        exact h.resolve_left fun hh => hk hh.symm
      simp [ObjFields.setAttr, hk, ObjFields.keys,
        ObjFields.keys_setAttr_of_mem t k v hmem]

theorem applyNewFields_eq_none (fields : List (String × Value)) :
    ∀ item : ObjFields, (∃ p ∈ fields, p.1 ∉ item.keys) →
    applyNewFields item fields = none := by
  induction fields with
  | nil => intro item h; simp at h
  | cons p rest ih =>
    intro item h
    by_cases hp : p.1 ∈ item.keys
    · obtain ⟨q, hq, hqk⟩ := h
      rcases List.mem_cons.mp hq with hq1 | hq2
      · exact absurd hp (hq1 ▸ hqk)
      · have : applyNewFields (item.setAttr p.1 p.2) rest = none := by
          refine ih _ ⟨q, hq2, ?_⟩
          rw [ObjFields.keys_setAttr_of_mem item p.1 p.2 hp]
          exact hqk
        simp [applyNewFields, hp, this]
    · simp [applyNewFields, hp]

set_option maxHeartbeats 4000000 in
theorem compareEntries_true_sound :
    ∀ (a b : ObjFields), compareEntries a b = some true →
    ∀ (k : String) (va vb : Value),
      a.lookup k = some va → pyStartsWith k '_' = false →
      b.lookup k = some vb →
      typeTag va = typeTag vb ∧ (isBasicVal va = true → va = vb) ∧
      (∀ xs ys, va = Value.vList xs → vb = Value.vList ys →
        xs.length = ys.length)
  | .nil, b, hcmp, k, va, vb, hva, hpriv, hvb => by
    simp [ObjFields.lookup] at hva
  | .cons k0 v0 rest, b, hcmp, k, va, vb, hva, hpriv, hvb => by
    rw [compareEntries.eq_2] at hcmp
    by_cases hp : pyStartsWith k0 '_' = true
    · have hkk : ¬ k0 = k := by
        intro h
        subst h
        rw [hp] at hpriv
        exact Bool.noConfusion hpriv
      rw [if_pos hp] at hcmp
      simp only [ObjFields.lookup, if_neg hkk] at hva
      exact compareEntries_true_sound rest b hcmp k va vb hva hpriv hvb
    · rw [if_neg hp] at hcmp
      split at hcmp
      · exact Option.noConfusion hcmp
      · rename_i w0 hb0
        have main : typeTag v0 = typeTag w0 ∧ (isBasicVal v0 = true → v0 = w0) ∧
            (∀ xs ys, v0 = Value.vList xs → w0 = Value.vList ys →
              xs.length = ys.length) ∧
            compareEntries rest b = some true := by
          by_cases htt : typeTag v0 = typeTag w0
          · rw [if_neg (not_not_intro htt)] at hcmp
            by_cases hbasic : isBasicVal v0 = true
            · rw [if_pos hbasic] at hcmp
              by_cases hvv : v0 = w0
              · rw [if_neg (not_not_intro hvv)] at hcmp
                refine ⟨htt, fun _ => hvv, fun xs ys hx _ => ?_, hcmp⟩
                rw [hx] at hbasic
                simp [isBasicVal] at hbasic
              · rw [if_pos hvv] at hcmp
                simp at hcmp
            · rw [if_neg hbasic] at hcmp
              split at hcmp
              · rename_i xs ys
                by_cases hlen : xs.length = ys.length
                · rw [if_neg (not_not_intro hlen)] at hcmp
                  split at hcmp
                  · exact Option.noConfusion hcmp
                  · refine ⟨htt, fun hb => absurd hb hbasic, ?_, hcmp⟩
                    intro xs2 ys2 hx hy
                    injection hx with hx2
                    injection hy with hy2
                    rw [← hx2, ← hy2]
                    exact hlen
                · rw [if_pos hlen] at hcmp
                  simp at hcmp
              · rename_i fa fb
                split at hcmp
                · exact Option.noConfusion hcmp
                · simp at hcmp
                · refine ⟨htt, fun hb => absurd hb hbasic, ?_, hcmp⟩
                  intro xs2 ys2 hx _
                  exact absurd hx (by simp)
              · simp at hcmp
          · rw [if_pos htt] at hcmp
            simp at hcmp
        by_cases hk : k0 = k
        · subst hk
          simp only [ObjFields.lookup, if_pos rfl, if_true,
            Option.some.injEq] at hva
          have hw : vb = w0 := by
            have := hvb.symm.trans hb0
            injection this
          rw [← hva, hw]
          exact ⟨main.1, main.2.1, main.2.2.1⟩
        · simp only [ObjFields.lookup, if_neg hk] at hva
          exact compareEntries_true_sound rest b main.2.2.2 k va vb
            hva hpriv hvb

theorem compareEntries_some_false_of_bad (a b : ObjFields)
    (hne : compareEntries a b ≠ none)
    (hbad : ∃ k va vb, a.lookup k = some va ∧ pyStartsWith k '_' = false ∧
      b.lookup k = some vb ∧
      (typeTag va ≠ typeTag vb ∨ (isBasicVal va = true ∧ va ≠ vb) ∨
       (∃ xs ys, va = Value.vList xs ∧ vb = Value.vList ys ∧
         xs.length ≠ ys.length))) :
    compareEntries a b = some false := by
  cases hco : compareEntries a b with
  | none => exact absurd hco hne
  | some bb =>
    cases bb with
    | false => rfl
    | true =>
      obtain ⟨k, va, vb, hva, hpriv, hvb, hbad2⟩ := hbad
      have hs := compareEntries_true_sound a b hco k va vb hva hpriv hvb
      rcases hbad2 with h1 | h2 | h3
      · exact absurd hs.1 h1
      · exact absurd (hs.2.1 h2.1) h2.2
      · obtain ⟨xs, ys, hx, hy, hl⟩ := h3
        exact absurd (hs.2.2 xs ys hx hy) hl

theorem splitRolesAux_spec :
    ∀ (rs : List String) (dis alw : Option (List String)),
    splitRolesAux (dis, alw) rs =
      ((if (rs.filter fun r => pyStartsWith r '~') = [] then dis
        else some ((dis.getD []) ++
          ((rs.filter fun r => pyStartsWith r '~').map pyDropFirst))),
       (if (rs.filter fun r => !pyStartsWith r '~') = [] then alw
        else some ((alw.getD []) ++ (rs.filter fun r => !pyStartsWith r '~')))) := by
  intro rs
  induction rs with
  | nil => intro dis alw; simp [splitRolesAux]
  | cons r rest ih =>
    intro dis alw
    by_cases hr : pyStartsWith r '~' = true
    · have step : splitRolesAux (dis, alw) (r :: rest) =
          splitRolesAux (some ((dis.getD []) ++ [pyDropFirst r]), alw) rest := by
        simp [splitRolesAux, hr]
      rw [step, ih]
      by_cases h2 : (rest.filter fun r => pyStartsWith r '~') = [] <;>
        simp [List.filter_cons, hr, h2, List.append_assoc]
    · have step : splitRolesAux (dis, alw) (r :: rest) =
          splitRolesAux (dis, some ((alw.getD []) ++ [r])) rest := by
        simp [splitRolesAux, hr]
      rw [step, ih]
      by_cases h2 : (rest.filter fun r => !pyStartsWith r '~') = [] <;>
        simp [List.filter_cons, hr, h2, List.append_assoc]

theorem pyIndex_eq_none_of_not_mem :
    ∀ (l : List String) (x : String), x ∉ l → pyIndex l x = none := by
  intro l
  induction l with
  | nil => intro x _; rfl
  | cons y t ih =>
    intro x hx
    simp only [List.mem_cons, not_or] at hx
    simp [pyIndex, Ne.symm hx.1, ih x hx.2]

theorem pyIndex_append (x : String) (l2 : List String) :
    ∀ l1 : List String, x ∉ l1 → pyIndex (l1 ++ x :: l2) x = some l1.length := by
  intro l1
  induction l1 with
  | nil => simp [pyIndex]
  | cons y t ih =>
    intro hx
    simp only [List.mem_cons, not_or] at hx
    simp [pyIndex, Ne.symm hx.1, ih hx.2]

/-- C1: for every `Workitem` proxy (well-formed after construction: every
iterated field key resolves on both the shadow and the snapshot), `save()`
issues zero remote calls when no shadow attribute differs from the snapshot
by value equality; otherwise it issues exactly one `updateWorkItem` call
whose payload keys are exactly the changed field names plus `uri`, followed
by exactly one re-fetch that resets both shadow and snapshot to the fetched
state. -/
theorem save_diff_contract (w : Workitem) (fetched : PolarionItem)
    (hkeys : ∀ k ∈ w.keys,
      (w.shadow.lookup k).isSome ∧ (w.snapshot.lookup k).isSome)
    (hfetched : fetched.unresolvable = false)
    (huri : w.shadow.lookup "uri" = w.snapshot.lookup "uri") :
    ((∀ k ∈ w.keys, w.shadow.lookup k = w.snapshot.lookup k) →
      save w fetched = some (w, [])) ∧
    ((∃ k ∈ w.keys, w.shadow.lookup k ≠ w.snapshot.lookup k) →
      ∃ w2 upd,
        save w fetched =
          some (w2, [Call.updateWorkItem upd, Call.getWorkItemByUri w.uri]) ∧
        upd.keys = (w.keys.filter fun k =>
          decide (w.shadow.lookup k ≠ w.snapshot.lookup k)) ++ ["uri"] ∧
        upd.lookup "uri" = some (Value.vStr w.uri) ∧
        w2.shadow = fetched.fields ∧ w2.snapshot = fetched.fields) :=
  ⟨fun hsame => save_of_unchanged w fetched hkeys hsame,
   fun hchanged => save_of_changed w fetched hkeys hfetched huri hchanged⟩

/-- Witness: a synchronized proxy saves with zero remote calls. -/
theorem save_diff_contract_witness :
    save wSaveClean itemFetched = some (wSaveClean, []) :=
  (save_diff_contract wSaveClean itemFetched (by decide) (by decide)
    (by decide)).1 (by decide)

/-- C2: a new-type construction whose `new_workitem_fields` does not cover
the server-declared required-field set, or contains a field name absent
from the item schema, raises `PolarionWorkitemAttributeError` and issues no
`createWorkItem` call. -/
theorem newWorkitem_validation (projectId typeId : String) (schema : ObjFields)
    (requiredFeatures : Option (List String))
    (newFields : Option (List (String × Value))) (fetched : PolarionItem)
    (hbad : (∃ rs, requiredFeatures = some rs ∧
        coversRequired rs newFields = false) ∨
      (∃ fields, newFields = some fields ∧ ∃ p ∈ fields, p.1 ∉ schema.keys)) :
    (newWorkitemInit projectId typeId schema requiredFeatures newFields
      fetched).2 = some () ∧
    ∀ item, Call.createWorkItemCall item ∉
      (newWorkitemInit projectId typeId schema requiredFeatures newFields
        fetched).1 := by
  rcases hbad with ⟨rs, hrs, hcov⟩ | ⟨fields, hf, hbadp⟩
  · subst hrs
    constructor
    · simp [newWorkitemInit, hcov]
    · intro item
      simp [newWorkitemInit, hcov]
  · subst hf
    have happ : applyNewFields schema fields = none :=
      applyNewFields_eq_none fields schema hbadp
    cases requiredFeatures with
    | none =>
      constructor
      · simp [newWorkitemInit, happ]
      · intro item
        simp [newWorkitemInit, happ]
    | some rs =>
      by_cases hcov : coversRequired rs (some fields) = false
      · constructor
        · simp [newWorkitemInit, hcov]
        · intro item
          simp [newWorkitemInit, hcov]
      · have hcovt : coversRequired rs (some fields) = true := by
          cases h : coversRequired rs (some fields) with
          | false => exact absurd h hcov
          | true => rfl
        constructor
        · simp [newWorkitemInit, hcovt, happ]
        · intro item
          simp [newWorkitemInit, hcovt, happ]

/-- Witness: a required field left unfilled aborts before creation. -/
theorem newWorkitem_validation_witness :
    (newWorkitemInit "p" "task" (ObjFields.cons "title" Value.vNone .nil)
      (some ["title"]) none ⟨"u", .nil, false⟩).2 = some () :=
  (newWorkitem_validation "p" "task" (ObjFields.cons "title" Value.vNone .nil)
    (some ["title"]) none ⟨"u", .nil, false⟩
    (Or.inl ⟨["title"], rfl, rfl⟩)).1

/-- C8: `getStatusEnum` / `getResolutionEnum` / `getSeverityEnum` query the
type-specific enumeration `{type.id}-{kind}` of the item's own type; on a
raising remote lookup they return the empty list (they never propagate the
failure, being total functions of the modelled response), and on success
they return the remote enumeration unchanged. -/
theorem enum_helpers_degrade (getEnum : String → Except Unit (List String))
    (typeId : String) :
    ((∀ e, getEnum (typeId ++ "-status") = Except.error e →
        getStatusEnum getEnum typeId = []) ∧
     (∀ l, getEnum (typeId ++ "-status") = Except.ok l →
        getStatusEnum getEnum typeId = l)) ∧
    ((∀ e, getEnum (typeId ++ "-resolution") = Except.error e →
        getResolutionEnum getEnum typeId = []) ∧
     (∀ l, getEnum (typeId ++ "-resolution") = Except.ok l →
        getResolutionEnum getEnum typeId = l)) ∧
    ((∀ e, getEnum (typeId ++ "-severity") = Except.error e →
        getSeverityEnum getEnum typeId = []) ∧
     (∀ l, getEnum (typeId ++ "-severity") = Except.ok l →
        getSeverityEnum getEnum typeId = l)) := by
  refine ⟨⟨?_, ?_⟩, ⟨?_, ?_⟩, ⟨?_, ?_⟩⟩ <;> intro x h <;>
    simp [getStatusEnum, getResolutionEnum, getSeverityEnum, h]

/-- Witness: a raising enumeration lookup degrades to the empty list. -/
theorem enum_helpers_degrade_witness :
    getStatusEnum (fun _ => Except.error ()) "task" = [] :=
  (enum_helpers_degrade (fun _ => Except.error ()) "task").1.1 () rfl

/-- C9: `getRevision()` returns the last history entry converted to an
integer, and converts a failing remote call, an empty history, or a
non-numeric last entry into the attribute error. -/
theorem getRevision_contract :
    (∀ e : Unit, getRevision (Except.error e) = Except.error ()) ∧
    getRevision (Except.ok []) = Except.error () ∧
    (∀ (history : List String) (s : String) (n : Int),
      history.getLast? = some s → pyToInt s = some n →
      getRevision (Except.ok history) = Except.ok n) ∧
    (∀ (history : List String) (s : String),
      history.getLast? = some s → pyToInt s = none →
      getRevision (Except.ok history) = Except.error ()) := by
  refine ⟨fun e => rfl, rfl, ?_, ?_⟩
  · intro history s n h1 h2
    simp [getRevision, h1, h2]
  · intro history s h1 h2
    simp [getRevision, h1, h2]

/-- Witness: the most recent numeric revision is returned. -/
theorem getRevision_contract_witness :
    getRevision (Except.ok ["100", "105"]) = Except.ok 105 :=
  getRevision_contract.2.2.1 ["100", "105"] "105" 105 (by decide) (by decide)

/-- C10: `setStatus` with a status outside `getAvailableStatus()` is a
silent no-op: the proxy state is returned unchanged and the only remote
call issued is the availability lookup — in particular no `updateWorkItem`
call. -/
theorem setStatus_unavailable_noop (w : Workitem) (available : List String)
    (status : String) (fetched : PolarionItem)
    (h : status ∉ available) :
    setStatusOp w available status fetched =
      some (w, [Call.getAvailableEnumOptionIdsCall w.uri "status"]) ∧
    ∀ payload, Call.updateWorkItem payload ∉
      [Call.getAvailableEnumOptionIdsCall w.uri "status"] := by
  refine ⟨by simp [setStatusOp, h], fun payload => by simp⟩

/-- Witness: an unavailable status string leaves the proxy untouched. -/
theorem setStatus_unavailable_noop_witness :
    setStatusOp wSaveClean ["open", "closed"] "bogus" itemFetched =
      some (wSaveClean, [Call.getAvailableEnumOptionIdsCall "u1" "status"]) :=
  (setStatus_unavailable_noop wSaveClean ["open", "closed"] "bogus"
    itemFetched (by decide)).1

/-- C3: the linked-item iterator with no role filter yields one
`(role, uri)` pair per link in original order (with the `'NA'` sentinel
substituted by `roleOf` for links without a role); with a pure deny-list
(every argument `~`-prefixed) it yields exactly the links whose role is not
in the stripped list; with both kinds of argument present it yields exactly
the links that are not denied and explicitly allowed; an absent link
collection yields the empty sequence. -/
theorem workItemIterator_contract :
    (∀ l : List LinkElem, iterLinked (some l) none =
      l.map fun x => (roleOf x, x.workItemURI)) ∧
    (∀ (l : List LinkElem) (rs : List String), rs ≠ [] →
      (∀ r ∈ rs, pyStartsWith r '~' = true) →
      iterLinked (some l) (some rs) =
        (l.filter fun x => !((rs.map pyDropFirst).contains (roleOf x))).map
          fun x => (roleOf x, x.workItemURI)) ∧
    (∀ (l : List LinkElem) (rs : List String),
      (∃ r ∈ rs, pyStartsWith r '~' = true) →
      (∃ r ∈ rs, pyStartsWith r '~' = false) →
      iterLinked (some l) (some rs) =
        (l.filter fun x =>
          (!(((rs.filter fun r => pyStartsWith r '~').map pyDropFirst).contains
            (roleOf x))) &&
          ((rs.filter fun r => !pyStartsWith r '~').contains (roleOf x))).map
          fun x => (roleOf x, x.workItemURI)) ∧
    (∀ roles, iterLinked none roles = []) := by
  refine ⟨?_, ?_, ?_, fun roles => rfl⟩
  · intro l
    simp [iterLinked, rolePass]
  · intro l rs hne hall
    have hfil : rs.filter (fun r => pyStartsWith r '~') = rs :=
      List.filter_eq_self.mpr fun a ha => hall a ha
    have hfil2 : rs.filter (fun r => !pyStartsWith r '~') = [] := by
      refine List.filter_eq_nil_iff.mpr fun a ha => ?_
      simp [hall a ha]
    have hsplit : splitRoles rs = (some (rs.map pyDropFirst), none) := by
      unfold splitRoles
      rw [splitRolesAux_spec, hfil, hfil2]
      simp [hne]
    simp [iterLinked, hsplit, rolePass]
  · intro l rs h1 h2
    obtain ⟨r1, hr1m, hr1⟩ := h1
    obtain ⟨r2, hr2m, hr2⟩ := h2
    have hf1 : rs.filter (fun r => pyStartsWith r '~') ≠ [] :=
      List.ne_nil_of_mem (List.mem_filter.mpr ⟨hr1m, hr1⟩)
    have hf2 : rs.filter (fun r => !pyStartsWith r '~') ≠ [] :=
      List.ne_nil_of_mem (List.mem_filter.mpr ⟨hr2m, by simp [hr2]⟩)
    have hsplit : splitRoles rs =
        (some ((rs.filter fun r => pyStartsWith r '~').map pyDropFirst),
         some (rs.filter fun r => !pyStartsWith r '~')) := by
      unfold splitRoles
      rw [splitRolesAux_spec]
      simp [hf1, hf2]
    simp [iterLinked, hsplit, rolePass]

/-- Witness: one deny-listed role is filtered out, the other link kept. -/
theorem workItemIterator_contract_witness :
    iterLinked (some [⟨some "parent", "u2"⟩, ⟨some "verifies", "u3"⟩])
      (some ["~parent"]) = [("verifies", "u3")] := by
  have h := workItemIterator_contract.2.1
    [⟨some "parent", "u2"⟩, ⟨some "verifies", "u3"⟩] ["~parent"]
    (by decide) (by decide)
  rw [h]
  decide

/-- C7: the `document` property returns the `'/'`-joined segments strictly
between the first `modules` segment and the first `workitems` segment of
the split location, and `None` when either marker is absent. -/
theorem document_contract :
    (∀ (location : String) (pre mid post : List String),
      pySplit location '/' = pre ++ "modules" :: (mid ++ "workitems" :: post) →
      "modules" ∉ pre → "workitems" ∉ pre → "workitems" ∉ mid →
      documentOf location = some (String.intercalate "/" mid)) ∧
    (∀ location : String,
      ("modules" ∉ pySplit location '/' ∨ "workitems" ∉ pySplit location '/') →
      documentOf location = none) := by
  constructor
  · intro location pre mid post hsplit hm hw1 hw2
    unfold documentOf documentOfParts
    rw [hsplit]
    have hidx1 : pyIndex (pre ++ "modules" :: (mid ++ "workitems" :: post))
        "modules" = some pre.length := pyIndex_append "modules" _ pre hm
    have hidx2 : pyIndex (pre ++ "modules" :: (mid ++ "workitems" :: post))
        "workitems" = some (pre.length + 1 + mid.length) := by
      have hre : pre ++ "modules" :: (mid ++ "workitems" :: post) =
          (pre ++ "modules" :: mid) ++ "workitems" :: post := by simp
      have hnot : "workitems" ∉ pre ++ "modules" :: mid := by
        simp only [List.mem_append, List.mem_cons, not_or]
        exact ⟨hw1, by decide, hw2⟩
      have hlen : (pre ++ "modules" :: mid).length =
          pre.length + 1 + mid.length := by
        simp
        omega
      rw [hre, pyIndex_append "workitems" post _ hnot, hlen]
    rw [hidx1, hidx2]
    have hdrop : (pre ++ "modules" :: (mid ++ "workitems" :: post)).drop
        (pre.length + 1) = mid ++ "workitems" :: post := by
      have hre : pre ++ "modules" :: (mid ++ "workitems" :: post) =
          (pre ++ ["modules"]) ++ (mid ++ "workitems" :: post) := by simp
      have hlen : pre.length + 1 = (pre ++ ["modules"]).length := by simp
      rw [hre, hlen, List.drop_left]
    show some ("/".intercalate
        (List.take (pre.length + 1 + mid.length - (pre.length + 1))
          (List.drop (pre.length + 1)
            (pre ++ "modules" :: (mid ++ "workitems" :: post))))) =
      some ("/".intercalate mid)
    rw [hdrop]
    have harith : pre.length + 1 + mid.length - (pre.length + 1) =
        mid.length := by omega
    rw [harith, List.take_left]
  · intro location h
    unfold documentOf documentOfParts
    rcases h with h | h
    · rw [pyIndex_eq_none_of_not_mem _ _ h]
    · rw [pyIndex_eq_none_of_not_mem _ _ h]
      cases pyIndex (pySplit location '/') "modules" <;> rfl

/-- Witness: a location with both markers yields the document path. -/
theorem document_contract_witness :
    documentOf "path/modules/doc/part/workitems/x" = some "doc/part" := by
  have h := document_contract.1 "path/modules/doc/part/workitems/x"
    ["path"] ["doc", "part"] ["x"] (by decide) (by decide) (by decide)
    (by decide)
  rw [h]
  decide

/-- C4 counterexample: the claim fails on the code at concrete inputs —
`delete()` issues its remote call with no re-fetch at all, and
`setDescription` (a "status/description/resolution setter") can issue zero
remote calls because it routes through the diff-based `save()` (here the
written description equals the snapshot value, so the diff is empty),
contradicting "performs its remote call(s) immediately and then forces a
full re-fetch ... without going through the diff-based save() path". -/
theorem mutatingHelpers_counterexample :
    deleteOp wDesc = [Call.deleteWorkItemCall "u1"] ∧
    Call.getWorkItemByUri "u1" ∉ deleteOp wDesc ∧
    moveToDocumentOp wDesc "docUri" none =
      [Call.moveWorkItemToDocumentCall "u1" "docUri" none] ∧
    setDescriptionOp wDesc "x" itemFetched = some (wDesc, []) := by
  refine ⟨rfl, by decide, rfl, by decide⟩

/-- C4 amended: the approve/assign add-remove (with and without
`remove_others`), hyperlink add-remove, attachment add/update/delete, and
linked-item add/remove helpers perform their remote call(s) immediately and
then force exactly one re-fetch that resets shadow and snapshot to the
fetched state; the status/description/resolution setters instead mutate the
shadow attribute and go through the diff-based `save()` path — in
particular each issues zero remote update calls when the written value
equals the snapshot; `delete` and `moveToDocument` issue their single
remote call with no re-fetch. -/
theorem mutatingHelpers_amended :
    (∀ (w : Workitem) (u : String) (f : PolarionItem),
      f.unresolvable = false →
      ∃ w2, removeApproveeOp w u f = some (w2,
        [Call.removeApproveeCall w.uri u, Call.getWorkItemByUri w.uri]) ∧
        w2.shadow = f.fields ∧ w2.snapshot = f.fields) ∧
    (∀ (w : Workitem) (u : String) (ro : Bool) (others : List String)
        (f : PolarionItem), f.unresolvable = false →
      ∃ w2, addApproveeOp w u ro others f = some (w2,
        (if ro then others.map (Call.removeApproveeCall w.uri) else []) ++
          Call.addApproveeCall w.uri u :: [Call.getWorkItemByUri w.uri]) ∧
        w2.shadow = f.fields ∧ w2.snapshot = f.fields) ∧
    (∀ (w : Workitem) (u : String) (f : PolarionItem),
      f.unresolvable = false →
      ∃ w2, removeAssigneeOp w u f = some (w2,
        [Call.removeAssigneeCall w.uri u, Call.getWorkItemByUri w.uri]) ∧
        w2.shadow = f.fields ∧ w2.snapshot = f.fields) ∧
    (∀ (w : Workitem) (u : String) (ro : Bool) (others : List String)
        (f : PolarionItem), f.unresolvable = false →
      ∃ w2, addAssigneeOp w u ro others f = some (w2,
        (if ro then others.map (Call.removeAssigneeCall w.uri) else []) ++
          Call.addAssigneeCall w.uri u :: [Call.getWorkItemByUri w.uri]) ∧
        w2.shadow = f.fields ∧ w2.snapshot = f.fields) ∧
    (∀ (w : Workitem) (url role : String) (f : PolarionItem),
      f.unresolvable = false →
      ∃ w2, addHyperlinkOp w url role f = some (w2,
        [Call.addHyperlinkCall w.uri url role, Call.getWorkItemByUri w.uri]) ∧
        w2.shadow = f.fields ∧ w2.snapshot = f.fields) ∧
    (∀ (w : Workitem) (url : String) (f : PolarionItem),
      f.unresolvable = false →
      ∃ w2, removeHyperlinkOp w url f = some (w2,
        [Call.removeHyperlinkCall w.uri url, Call.getWorkItemByUri w.uri]) ∧
        w2.shadow = f.fields ∧ w2.snapshot = f.fields) ∧
    (∀ (w : Workitem) (attId : String) (f : PolarionItem),
      f.unresolvable = false →
      ∃ w2, deleteAttachmentOp w attId f = some (w2,
        [Call.deleteAttachmentCall w.uri attId, Call.getWorkItemByUri w.uri]) ∧
        w2.shadow = f.fields ∧ w2.snapshot = f.fields) ∧
    (∀ (w : Workitem) (fileName title : String) (f : PolarionItem),
      f.unresolvable = false →
      ∃ w2, addAttachmentOp w fileName title f = some (w2,
        [Call.createAttachmentCall w.uri fileName title,
         Call.getWorkItemByUri w.uri]) ∧
        w2.shadow = f.fields ∧ w2.snapshot = f.fields) ∧
    (∀ (w : Workitem) (attId fileName title : String) (f : PolarionItem),
      f.unresolvable = false →
      ∃ w2, updateAttachmentOp w attId fileName title f = some (w2,
        [Call.updateAttachmentCall w.uri attId fileName title,
         Call.getWorkItemByUri w.uri]) ∧
        w2.shadow = f.fields ∧ w2.snapshot = f.fields) ∧
    (∀ (w other : Workitem) (role : String) (f g : PolarionItem),
      f.unresolvable = false → g.unresolvable = false →
      ∃ w2 o2, addLinkedItemOp w other role f g = some (w2, o2,
        [Call.addLinkedItemCall w.uri other.uri role,
         Call.getWorkItemByUri w.uri, Call.getWorkItemByUri other.uri]) ∧
        w2.shadow = f.fields ∧ w2.snapshot = f.fields ∧
        o2.shadow = g.fields ∧ o2.snapshot = g.fields) ∧
    (∀ (w other : Workitem) (role : String) (f g : PolarionItem),
      f.unresolvable = false → g.unresolvable = false →
      ∃ w2 o2, removeLinkedItemOp w other role f g = some (w2, o2,
        [Call.removeLinkedItemCall w.uri other.uri role,
         Call.getWorkItemByUri w.uri, Call.getWorkItemByUri other.uri]) ∧
        w2.shadow = f.fields ∧ w2.snapshot = f.fields ∧
        o2.shadow = g.fields ∧ o2.snapshot = g.fields) ∧
    (∀ (w : Workitem) (d : String) (f : PolarionItem),
      setDescriptionOp w d f =
        save ⟨w.wid, w.uri, w.keys,
          w.shadow.setAttr "description" (textTypeVal d), w.snapshot⟩ f) ∧
    (∀ (w : Workitem) (d : String) (f : PolarionItem),
      (∀ k ∈ w.keys,
        (w.shadow.lookup k).isSome ∧ (w.snapshot.lookup k).isSome) →
      (∀ k ∈ w.keys, w.shadow.lookup k = w.snapshot.lookup k) →
      w.shadow.lookup "description" = some (textTypeVal d) →
      setDescriptionOp w d f = some (w, [])) ∧
    (∀ (w : Workitem) (r : String) (f : PolarionItem) (fs : ObjFields),
      w.shadow.lookup "resolution" = some (Value.vObj fs) →
      setResolutionOp w r f =
        save ⟨w.wid, w.uri, w.keys,
          w.shadow.setAttr "resolution"
            (Value.vObj (fs.setAttr "id" (Value.vStr r))), w.snapshot⟩ f) ∧
    (∀ (w : Workitem) (r : String) (f : PolarionItem),
      w.shadow.lookup "resolution" = some Value.vNone →
      setResolutionOp w r f =
        save ⟨w.wid, w.uri, w.keys,
          w.shadow.setAttr "resolution"
            (Value.vObj (.cons "id" (Value.vStr r) .nil)), w.snapshot⟩ f) ∧
    (∀ (w : Workitem) (r : String) (f : PolarionItem) (fs : ObjFields),
      (∀ k ∈ w.keys,
        (w.shadow.lookup k).isSome ∧ (w.snapshot.lookup k).isSome) →
      (∀ k ∈ w.keys, w.shadow.lookup k = w.snapshot.lookup k) →
      w.shadow.lookup "resolution" = some (Value.vObj fs) →
      fs.lookup "id" = some (Value.vStr r) →
      setResolutionOp w r f = some (w, [])) ∧
    (∀ (w : Workitem) (available : List String) (status : String)
        (f : PolarionItem) (fs : ObjFields),
      status ∈ available →
      w.shadow.lookup "status" = some (Value.vObj fs) →
      setStatusOp w available status f =
        (save ⟨w.wid, w.uri, w.keys,
          w.shadow.setAttr "status"
            (Value.vObj (fs.setAttr "id" (Value.vStr status))),
          w.snapshot⟩ f).map
          fun p => (p.1,
            Call.getAvailableEnumOptionIdsCall w.uri "status" :: p.2)) ∧
    (∀ (w : Workitem) (available : List String) (status : String)
        (f : PolarionItem) (fs : ObjFields),
      status ∈ available →
      (∀ k ∈ w.keys,
        (w.shadow.lookup k).isSome ∧ (w.snapshot.lookup k).isSome) →
      (∀ k ∈ w.keys, w.shadow.lookup k = w.snapshot.lookup k) →
      w.shadow.lookup "status" = some (Value.vObj fs) →
      fs.lookup "id" = some (Value.vStr status) →
      setStatusOp w available status f =
        some (w, [Call.getAvailableEnumOptionIdsCall w.uri "status"])) ∧
    (∀ w : Workitem, deleteOp w = [Call.deleteWorkItemCall w.uri]) ∧
    (∀ (w : Workitem) (docUri : String) (parentUri : Option String),
      moveToDocumentOp w docUri parentUri =
        [Call.moveWorkItemToDocumentCall w.uri docUri parentUri]) := by
  refine ⟨?_, ?_, ?_, ?_, ?_, ?_, ?_, ?_, ?_, ?_, ?_, ?_, ?_, ?_, ?_, ?_,
    ?_, ?_, fun w => rfl, fun w docUri parentUri => rfl⟩
  · intro w u f hf
    exact ⟨⟨w.wid, w.uri, f.fields.keys, f.fields, f.fields⟩,
      by simp [removeApproveeOp, reloadFromPolarion, hf], rfl, rfl⟩
  · intro w u ro others f hf
    exact ⟨⟨w.wid, w.uri, f.fields.keys, f.fields, f.fields⟩,
      by simp [addApproveeOp, reloadFromPolarion, hf], rfl, rfl⟩
  · intro w u f hf
    exact ⟨⟨w.wid, w.uri, f.fields.keys, f.fields, f.fields⟩,
      by simp [removeAssigneeOp, reloadFromPolarion, hf], rfl, rfl⟩
  · intro w u ro others f hf
    exact ⟨⟨w.wid, w.uri, f.fields.keys, f.fields, f.fields⟩,
      by simp [addAssigneeOp, reloadFromPolarion, hf], rfl, rfl⟩
  · intro w url role f hf
    exact ⟨⟨w.wid, w.uri, f.fields.keys, f.fields, f.fields⟩,
      by simp [addHyperlinkOp, reloadFromPolarion, hf], rfl, rfl⟩
  · intro w url f hf
    exact ⟨⟨w.wid, w.uri, f.fields.keys, f.fields, f.fields⟩,
      by simp [removeHyperlinkOp, reloadFromPolarion, hf], rfl, rfl⟩
  · intro w attId f hf
    exact ⟨⟨w.wid, w.uri, f.fields.keys, f.fields, f.fields⟩,
      by simp [deleteAttachmentOp, reloadFromPolarion, hf], rfl, rfl⟩
  · intro w fileName title f hf
    exact ⟨⟨w.wid, w.uri, f.fields.keys, f.fields, f.fields⟩,
      by simp [addAttachmentOp, reloadFromPolarion, hf], rfl, rfl⟩
  · intro w attId fileName title f hf
    exact ⟨⟨w.wid, w.uri, f.fields.keys, f.fields, f.fields⟩,
      by simp [updateAttachmentOp, reloadFromPolarion, hf], rfl, rfl⟩
  · intro w other role f g hf hg
    exact ⟨⟨w.wid, w.uri, f.fields.keys, f.fields, f.fields⟩,
      ⟨other.wid, other.uri, g.fields.keys, g.fields, g.fields⟩,
      by simp [addLinkedItemOp, reloadFromPolarion, hf, hg], rfl, rfl, rfl, rfl⟩
  · intro w other role f g hf hg
    exact ⟨⟨w.wid, w.uri, f.fields.keys, f.fields, f.fields⟩,
      ⟨other.wid, other.uri, g.fields.keys, g.fields, g.fields⟩,
      by simp [removeLinkedItemOp, reloadFromPolarion, hf, hg],
      rfl, rfl, rfl, rfl⟩
  · intro w d f
    rfl
  · intro w d f h1 h2 hdesc
    have hsa : w.shadow.setAttr "description" (textTypeVal d) = w.shadow :=
      ObjFields.setAttr_eq_self _ _ _ hdesc
    unfold setDescriptionOp
    rw [hsa]
    exact save_of_unchanged w f h1 h2
  · intro w r f fs hres
    simp only [setResolutionOp, hres]
  · intro w r f hres
    simp only [setResolutionOp, hres]
  · intro w r f fs h1 h2 hres hid
    have e1 : fs.setAttr "id" (Value.vStr r) = fs :=
      ObjFields.setAttr_eq_self fs _ _ hid
    have e2 : w.shadow.setAttr "resolution" (Value.vObj fs) = w.shadow :=
      ObjFields.setAttr_eq_self w.shadow _ _ hres
    simp only [setResolutionOp, hres]
    rw [e1, e2]
    exact save_of_unchanged w f h1 h2
  · intro w available status f fs hmem hres
    simp only [setStatusOp, if_pos hmem, hres]
    cases hsv : save ⟨w.wid, w.uri, w.keys,
        w.shadow.setAttr "status"
          (Value.vObj (fs.setAttr "id" (Value.vStr status))),
        w.snapshot⟩ f with
    | none => simp [hsv]
    | some p =>
      obtain ⟨w2, calls⟩ := p
      simp [hsv]
  · intro w available status f fs hmem h1 h2 hres hid
    have e1 : fs.setAttr "id" (Value.vStr status) = fs :=
      ObjFields.setAttr_eq_self fs _ _ hid
    have e2 : w.shadow.setAttr "status" (Value.vObj fs) = w.shadow :=
      ObjFields.setAttr_eq_self w.shadow _ _ hres
    have hs : save ⟨w.wid, w.uri, w.keys, w.shadow, w.snapshot⟩ f =
        some (w, []) := save_of_unchanged w f h1 h2
    simp only [setStatusOp, if_pos hmem, hres]
    rw [e1, e2, hs]
    simp

/-- Witness for the amended C4 statement at a concrete proxy. -/
theorem mutatingHelpers_amended_witness :
    ∃ w2, removeApproveeOp wSaveClean "user1" itemFetched =
      some (w2, [Call.removeApproveeCall "u1" "user1",
        Call.getWorkItemByUri "u1"]) ∧
      w2.shadow = itemFetched.fields ∧ w2.snapshot = itemFetched.fields :=
  mutatingHelpers_amended.1 wSaveClean "user1" itemFetched (by decide)

/-- C5 counterexample: with the test-steps feature present and a
two-column configuration, a step list whose SECOND step has three cells
(cell counts `[2, 3]`) passes the local validation — which only inspects
the first step — and the remote `setTestSteps` call IS issued, so a
mismatching cell count on "some step" does not fail validation. -/
theorem setTestSteps_counterexample :
    (setTestStepsOp "u" "p" ["testSteps"] ["c1", "c2"] stepsBadTail).2 =
      none ∧
    Call.setTestStepsCall "u" ∈
      (setTestStepsOp "u" "p" ["testSteps"] ["c1", "c2"] stepsBadTail).1 ∧
    (stepsBadTail.map fun st => st.cells.length) = [2, 3] := by
  refine ⟨by decide, by decide, by decide⟩

/-- C5 amended: on an item with the test-steps feature, a step list whose
FIRST step's cell count differs from the configured column count fails the
local assertion before any remote `setTestSteps` call is issued. -/
theorem setTestSteps_first_step_validation (uri projectId : String)
    (customFields columns : List String) (steps : List TestStepRow)
    (first : TestStepRow)
    (hts : customFields.contains "testSteps" = true)
    (hfirst : steps.head? = some first)
    (hbad : first.cells.length ≠ columns.length) :
    (setTestStepsOp uri projectId customFields columns steps).2 = some () ∧
    Call.setTestStepsCall uri ∉
      (setTestStepsOp uri projectId customFields columns steps).1 := by
  have hne : steps.isEmpty = false := by
    cases steps with
    | nil => simp at hfirst
    | cons a t => rfl
  have hmem : "testSteps" ∈ customFields := by simpa using hts
  constructor
  · simp [setTestStepsOp, hne, hts, hmem, hfirst, hbad]
  · simp [setTestStepsOp, hne, hts, hmem, hfirst, hbad]

/-- Witness: a first step with one cell against two columns aborts. -/
theorem setTestSteps_first_step_validation_witness :
    (setTestStepsOp "u" "p" ["testSteps"] ["c1", "c2"] [⟨[goodCell]⟩]).2 =
      some () :=
  (setTestSteps_first_step_validation "u" "p" ["testSteps"] ["c1", "c2"]
    [⟨[goodCell]⟩] ⟨[goodCell]⟩ (by decide) (by decide) (by decide)).1

/-- C6: whenever the `__eq__` comparison completes without raising, a
runtime-type mismatch, a differing basic (primitive/date-like) value, or a
length mismatch on a list-valued non-private field forces the result
`False`; yet two proxies that differ only inside the elements of a
same-length list-valued field compare equal, because the element-wise
recursive comparison's boolean result is discarded; and `__hash__` is the
numeric identity value, independent of structural equality (two proxies
that compare equal hash differently). -/
theorem workitem_eq_hash_contract :
    (∀ a b : Workitem, wiEq a b ≠ none →
      (∃ k va vb, a.shadow.lookup k = some va ∧
        pyStartsWith k '_' = false ∧ b.shadow.lookup k = some vb ∧
        (typeTag va ≠ typeTag vb ∨ (isBasicVal va = true ∧ va ≠ vb) ∨
         (∃ xs ys, va = Value.vList xs ∧ vb = Value.vList ys ∧
           xs.length ≠ ys.length))) →
      wiEq a b = some false) ∧
    (wiEq wNestedA wNestedB = some true ∧ wNestedA.shadow ≠ wNestedB.shadow) ∧
    (∀ w : Workitem, wiHash w = w.wid) ∧
    (wiEq wNestedA wNestedB = some true ∧ wiHash wNestedA ≠ wiHash wNestedB) := by
  refine ⟨?_, ⟨by decide, by decide⟩, fun w => rfl, by decide, by decide⟩
  intro a b hne hbad
  exact compareEntries_some_false_of_bad a.shadow b.shadow hne hbad

/-- Witness: an `int` field against a `str` field makes equality `False`. -/
theorem workitem_eq_hash_contract_witness :
    wiEq wMismatchA wMismatchB = some false :=
  workitem_eq_hash_contract.1 wMismatchA wMismatchB (by decide)
    ⟨"t", Value.vInt 1, Value.vStr "x", by decide, by decide, by decide,
     Or.inl (by decide)⟩
